import Mathlib

/-!
Shallow embedding of `src/aiohomekit/zeroconf/__init__.py` (zeroconf discovery
helpers of aiohomekit): the property codec (`decode_discovery_properties`,
`parse_discovery_properties`, `get_from_properties`), enumeration discovery
(`discover_homekit_devices`) and targeted resolution
(`_find_device_ip_and_port`).

Modelling conventions:
- A Python `str` is a list of Unicode code points (`Str`), a Python `bytes`
  is a list of byte values (`Bytes`).
- Python dicts are association lists in insertion order with unique keys;
  assignment is `upsert` (update in place, else append), matching CPython's
  ordered-dict semantics.
- Machine-level concerns (sockets, mDNS transport, sleeping) are out of the
  model: a discovery call is a function of the sequence of announcements the
  `CollectingListener` has accumulated, and the poll loop of
  `_find_device_ip_and_port` reads a time-indexed family of snapshots
  `snap : Nat -> List SInfo`.
- Fallible Python operations return `Except PyErr _`; `zeroconf.close()`
  calls are counted explicitly so that resource-cleanup claims are statable.
-/

namespace AiohomekitZeroconf

/-- A Python `str`, as its list of Unicode code points. -/
abbrev Str := List Nat

/-- A Python `bytes`, as its list of byte values. -/
abbrev Bytes := List Nat

/-- Convenience: build a `Str` from a Lean string literal. -/
def S (s : String) : Str := s.data.map Char.toNat

/-- UTF-8 encoding of one code point (Python `str.encode("utf-8")`, per
code point). -/
def utf8EncodeChar (c : Nat) : List Nat :=
  if c < 0x80 then [c]
  else if c < 0x800 then [0xC0 + c / 64, 0x80 + c % 64]
  else if c < 0x10000 then [0xE0 + c / 4096, 0x80 + c / 64 % 64, 0x80 + c % 64]
  else [0xF0 + c / 262144, 0x80 + c / 4096 % 64, 0x80 + c / 64 % 64, 0x80 + c % 64]

/-- UTF-8 encoding of a whole string. -/
def utf8Encode (s : Str) : Bytes := (s.map utf8EncodeChar).flatten

/-- Decode one UTF-8 sequence from the front of a byte list, as Python's
strict UTF-8 decoder does: continuation bytes are checked, and overlong
forms, surrogates and code points beyond U+10FFFF are rejected. -/
def utf8DecodeChar : List Nat → Option (Nat × List Nat)
  | [] => none
  | b0 :: rest =>
    if b0 < 0x80 then some (b0, rest)
    else if b0 < 0xC2 then none
    else if b0 < 0xE0 then
      match rest with
      | b1 :: rest1 =>
        if 0x80 ≤ b1 ∧ b1 < 0xC0 then
          some ((b0 - 0xC0) * 64 + (b1 - 0x80), rest1)
        else none
      | [] => none
    else if b0 < 0xF0 then
      match rest with
      | b1 :: b2 :: rest2 =>
        if 0x80 ≤ b1 ∧ b1 < 0xC0 ∧ 0x80 ≤ b2 ∧ b2 < 0xC0 then
          let c := (b0 - 0xE0) * 4096 + (b1 - 0x80) * 64 + (b2 - 0x80)
          if 0x800 ≤ c ∧ (c < 0xD800 ∨ 0xE000 ≤ c) then some (c, rest2) else none
        else none
      | _ => none
    else if b0 < 0xF5 then
      match rest with
      | b1 :: b2 :: b3 :: rest3 =>
        if 0x80 ≤ b1 ∧ b1 < 0xC0 ∧ 0x80 ≤ b2 ∧ b2 < 0xC0 ∧ 0x80 ≤ b3 ∧ b3 < 0xC0 then
          let c := (b0 - 0xF0) * 262144 + (b1 - 0x80) * 4096 + (b2 - 0x80) * 64 + (b3 - 0x80)
          if 0x10000 ≤ c ∧ c ≤ 0x10FFFF then some (c, rest3) else none
        else none
      | _ => none
    else none

/-- Fuelled UTF-8 decoding loop (each decoded character consumes at least
one byte, so `utf8Decode`'s fuel of `l.length` always suffices). -/
def utf8DecodeAux : Nat → List Nat → Option Str
  | _, [] => some []
  | 0, _ :: _ => none
  | fuel + 1, b :: l =>
    (utf8DecodeChar (b :: l)).bind fun cr =>
      (utf8DecodeAux fuel cr.2).map fun s => cr.1 :: s

/-- Python `bytes.decode("utf-8")`: `none` models `UnicodeDecodeError`. -/
def utf8Decode (l : List Nat) : Option Str := utf8DecodeAux l.length l

/-- The Python exceptions the embedded code can raise. -/
inductive PyErr where
  /-- Python `KeyError`: indexing a dict with an absent key, e.g. `props["ci"]`. -/
  | keyError : PyErr
  /-- Python `UnicodeDecodeError` from `bytes.decode("utf-8")` (the spec's
  DecodingError). -/
  | unicodeDecodeError : PyErr
  /-- Python `ValueError` from `int(...)` on non-numeric text (the spec's
  ParseError). -/
  | valueError : PyErr
  /-- Python `IndexError`: `info.addresses[0]` on an empty address list. -/
  | indexError : PyErr
  /-- Python `OSError` from `inet_ntoa` on a packed address that is not 4 bytes. -/
  | oserror : PyErr
  /-- The exception `aiohomekit.exceptions.AccessoryNotFoundError` (the spec's
  DeviceNotFound). -/
  | accessoryNotFound : PyErr
deriving DecidableEq

/-- Lift an `Option` to `Except`, raising `e` on `none`. -/
def exceptOfOption (e : PyErr) : Option α → Except PyErr α
  | some a => .ok a
  | none => .error e

/-- Dict lookup (`d[k]` / `k in d`): association lists hold unique keys, so
first match is the dict entry. -/
def dlookup {α : Type} : List (Str × α) → Str → Option α
  | [], _ => none
  | (k, v) :: rest, key => if k = key then some v else dlookup rest key

/-- Dict assignment `d[k] = v`: update the value in place if the key exists
(CPython keeps the original position), else append. -/
def upsert {α : Type} : List (Str × α) → Str → α → List (Str × α)
  | [], k, v => [(k, v)]
  | (k', v') :: rest, k, v =>
    if k' = k then (k', v) :: rest else (k', v') :: upsert rest k v

/-- Dict `d.update(e)`: assign every entry of `e` into `d` in order. -/
def dictUpdate {α : Type} (d e : List (Str × α)) : List (Str × α) :=
  e.foldl (fun acc kv => upsert acc kv.1 kv.2) d

/-- Python `str.lower()` on one code point. Advertisement keys are short
ASCII tokens (spec section 3), so ASCII case folding is the relevant
fragment of Unicode lowercasing. -/
def pyLowerChar (c : Nat) : Nat := if 65 ≤ c ∧ c ≤ 90 then c + 32 else c

/-- Python `str.lower()`. -/
def pyLower (s : Str) : Str := s.map pyLowerChar

/-- The dict comprehension `{k.lower(): props[k] for k in props}` of
`get_from_properties`: since `props` has unique keys, `props[k]` is the
paired value, and iteration is in insertion order. -/
def lowerDict {α : Type} (props : List (Str × α)) : List (Str × α) :=
  props.foldl (fun acc kv => upsert acc (pyLower kv.1) kv.2) []

/-- The `default` argument of `get_from_properties`: a Python value of type
`Optional[Union[int, str]]` (the `Option` wrapper models `None`). -/
inductive PyVal where
  | vInt : Int → PyVal
  | vStr : Str → PyVal
deriving DecidableEq

/-- Python truthiness of an `int` or `str` value. -/
def pyTruthy : PyVal → Bool
  | .vInt n => n ≠ 0
  | .vStr s => !s.isEmpty

/-- Decimal digits of a natural number, as code points. -/
def natToStr (n : Nat) : Str := (Nat.toDigits 10 n).map Char.toNat

/-- Python `str(...)` of an `int`. -/
def intToStr (n : Int) : Str :=
  if n < 0 then 45 :: natToStr n.natAbs else natToStr n.natAbs

/-- Python `str(...)` of an `int` or `str` value. -/
def pyStr : PyVal → Str
  | .vInt n => intToStr n
  | .vStr s => s

/-- Is this code point an ASCII decimal digit? -/
def isDigitCp (c : Nat) : Bool := 48 ≤ c ∧ c ≤ 57

/-- Numeric value of a nonempty digit string. -/
def digitsToNat (ds : List Nat) : Nat := ds.foldl (fun a d => a * 10 + (d - 48)) 0

/-- Python `int(s)` for a base-10 string: an optional sign followed by at
least one digit; anything else raises `ValueError` (`none`). Python
additionally strips surrounding whitespace and allows `_` digit grouping;
advertisement numerics are plain decimal, so those forms are omitted. -/
def pyInt : Str → Option Int
  | [] => none
  | 43 :: rest =>
    if rest ≠ [] ∧ rest.all isDigitCp then some (digitsToNat rest) else none
  | 45 :: rest =>
    if rest ≠ [] ∧ rest.all isDigitCp then some (-(digitsToNat rest : Int)) else none
  | s =>
    if s.all isDigitCp then some (digitsToNat s) else none

/-- Source `get_from_properties(props, key, default, case_sensitive)` (lines
62-91): look the key up (optionally through a lowercased copy of the dict
and a lowercased key); if absent, return `str(default)` when `default` is
truthy, else `None`. -/
def get_from_properties (props : List (Str × Str)) (key : Str)
    (default : Option PyVal) (case_sensitive : Bool) : Option Str :=
  let tmp_props := if case_sensitive then props else lowerDict props
  let tmp_key := if case_sensitive then key else pyLower key
  match dlookup tmp_props tmp_key with
  | some v => some v
  | none =>
    match default with
    | some d => if pyTruthy d then some (pyStr d) else none
    | none => none

/-- A value stored in a normalized discovery record. The classification
wrappers are external collaborators of this module (the classes live in
`aiohomekit.model`, outside this file's source). Modelled from the spec:
`buildFeatureFlags` / `classifyStatusFlags` / `classifyCategory` each turn
the parsed integer into a tagged value (`FeatureFlags(flags)`,
`IpStatusFlags[n]`, `Categories[n]`); their own out-of-range failure
(UnknownEnumValue) is not exercised by any claim and is not modelled. -/
inductive RVal where
  /-- a Python `str` value -/
  | rStr : Str → RVal
  /-- a Python `int` value -/
  | rInt : Int → RVal
  /-- the value `FeatureFlags(n)` -/
  | rFF : Int → RVal
  /-- the value `IpStatusFlags[n]` -/
  | rSF : Int → RVal
  /-- the value `Categories[n]` -/
  | rCat : Int → RVal
deriving DecidableEq

/-- A normalized discovery record: a Python dict in insertion order. -/
abbrev Record := List (Str × RVal)

/-- Python `k in data` for a record. -/
def hasKeyR (d : Record) (k : Str) : Bool := d.any (fun p => p.1 = k)

/-- Source `decode_discovery_properties(props)` (lines 130-141): decode
every key and value with UTF-8 in iteration order; the first undecodable
byte string raises (models the propagating `UnicodeDecodeError`). -/
def decode_discovery_properties : List (Bytes × Bytes) → Except PyErr (List (Str × Str))
  | [] => .ok []
  | (k, v) :: rest =>
    match utf8Decode k with
    | none => .error .unicodeDecodeError
    | some ks =>
      match utf8Decode v with
      | none => .error .unicodeDecodeError
      | some vs =>
        match decode_discovery_properties rest with
        | .error e => .error e
        | .ok out => .ok ((ks, vs) :: out)

/-- Source `parse_discovery_properties(props)` (lines 144-200), translated
statement by statement. Each `if x:` on a lookup result is Python
truthiness: the value must be present and nonempty. Note two source
peculiarities kept verbatim: `ff` is parsed via `int(feature_flags)` and
defaults to 0, and the `ci` branch re-reads `props["ci"]` with a
case-sensitive dict index even though the guard used a case-insensitive
lookup. -/
def parse_discovery_properties (props : List (Str × Str)) : Except PyErr Record := do
  let d0 : Record := []
  let conf_number := get_from_properties props (S "c#") none false
  let d1 := match conf_number with
    | some v => if v.isEmpty then d0 else d0 ++ [(S "c#", RVal.rStr v)]
    | none => d0
  let feature_flags := get_from_properties props (S "ff") none false
  let flags ← match feature_flags with
    | some v =>
      if v.isEmpty then pure (0 : Int)
      else exceptOfOption PyErr.valueError (pyInt v)
    | none => pure (0 : Int)
  let d2 := d1 ++ [(S "ff", RVal.rInt flags), (S "flags", RVal.rFF flags)]
  let dev_id := get_from_properties props (S "id") none false
  let d3 := match dev_id with
    | some v => if v.isEmpty then d2 else d2 ++ [(S "id", RVal.rStr v)]
    | none => d2
  let model_name := get_from_properties props (S "md") none false
  let d4 := match model_name with
    | some v => if v.isEmpty then d3 else d3 ++ [(S "md", RVal.rStr v)]
    | none => d3
  let protocol_version := get_from_properties props (S "pv") (some (PyVal.vStr (S "1.0"))) false
  let d5 := match protocol_version with
    | some v => if v.isEmpty then d4 else d4 ++ [(S "pv", RVal.rStr v)]
    | none => d4
  let status := get_from_properties props (S "s#") none false
  let d6 := match status with
    | some v => if v.isEmpty then d5 else d5 ++ [(S "s#", RVal.rStr v)]
    | none => d5
  let status_flag := get_from_properties props (S "sf") none false
  let d7 ← match status_flag with
    | some v =>
      if v.isEmpty then pure d6
      else do
        let n ← exceptOfOption PyErr.valueError (pyInt v)
        pure (d6 ++ [(S "sf", RVal.rStr v), (S "statusflags", RVal.rSF n)])
    | none => pure d6
  let category_id := get_from_properties props (S "ci") none false
  let d8 ← match category_id with
    | some v =>
      if v.isEmpty then pure d7
      else do
        let category ← exceptOfOption PyErr.keyError (dlookup props (S "ci"))
        let n ← exceptOfOption PyErr.valueError (pyInt category)
        pure (d7 ++ [(S "ci", RVal.rStr category), (S "category", RVal.rCat n)])
    | none => pure d7
  pure d8

/-- A resolved zeroconf announcement (`zeroconf.ServiceInfo`), restricted to
the fields the source reads: `name`, `addresses` (packed 4-byte values),
`port` and the raw byte `properties`. -/
structure SInfo where
  name : Str
  addresses : List Bytes
  port : Nat
  properties : List (Bytes × Bytes)
deriving DecidableEq

/-- Function `_socket.inet_ntoa`: dotted-decimal text of a packed 4-byte address;
any other length raises (`none`). -/
def inet_ntoa : Bytes → Option Str
  | [a, b, c, d] =>
    some (natToStr a ++ [46] ++ natToStr b ++ [46] ++ natToStr c ++ [46] ++ natToStr d)
  | _ => none

/-- The body of `discover_homekit_devices`' per-announcement loop (source
lines 109-119): build the base dict from name/address/port, then
`data.update(parse_discovery_properties(decode_discovery_properties(...)))`.
Every failure propagates (there is no `try` in the source loop). -/
def process_info (info : SInfo) : Except PyErr Record := do
  let packed ← match info.addresses with
    | [] => Except.error PyErr.indexError
    | a :: _ => pure a
  let addr ← exceptOfOption PyErr.oserror (inet_ntoa packed)
  let props ← decode_discovery_properties info.properties
  let parsed ← parse_discovery_properties props
  pure (dictUpdate
    [(S "name", RVal.rStr info.name), (S "address", RVal.rStr addr),
     (S "port", RVal.rInt info.port)] parsed)

/-- The collection loop of `discover_homekit_devices` (source lines
106-125) applied to the announcements the listener gathered: process each
in order, drop records missing `c#` or `md` (`continue`), and let the
first exception abort the whole loop. -/
def discover_records : List SInfo → Except PyErr (List Record)
  | [] => .ok []
  | info :: rest =>
    match process_info info with
    | .error e => .error e
    | .ok data =>
      match discover_records rest with
      | .error e => .error e
      | .ok tail =>
        if hasKeyR data (S "c#") && hasKeyR data (S "md") then .ok (data :: tail)
        else .ok tail

/-- Source `discover_homekit_devices` (lines 94-127) as a function of the
collected announcements, paired with the number of `zeroconf.close()`
calls performed: the source calls `close()` on line 126, after the loop
and outside any `try`/`finally`, so a propagating exception skips it. -/
def discover_homekit_devices (infos : List SInfo) : Except PyErr (List Record) × Nat :=
  match discover_records infos with
  | .ok recs => (.ok recs, 1)
  | .error e => (.error e, 0)

/-- The byte key `b"id"`. -/
def bIdK : Bytes := [105, 100]

/-- One pass of `_find_device_ip_and_port`'s inner `for` loop (source lines
217-219) over a snapshot of the collector's data:
`info.properties[b"id"].decode() == device_id`, returning
`(inet_ntoa(info.addresses[0]), info.port)` on the first match. `ok none`
means the pass fell through with no match. -/
def checkData (device_id : Str) : List SInfo → Except PyErr (Option (Str × Nat))
  | [] => .ok none
  | info :: rest =>
    match dlookup info.properties bIdK with
    | none => .error .keyError
    | some v =>
      match utf8Decode v with
      | none => .error .unicodeDecodeError
      | some s =>
        if s = device_id then
          match info.addresses with
          | [] => .error .indexError
          | a :: _ =>
            match inet_ntoa a with
            | none => .error .oserror
            | some astr => .ok (some (astr, info.port))
        else checkData device_id rest

/-- The `while counter >= 0` poll loop of `_find_device_ip_and_port`
(source lines 215-222): `n` is the number of iterations left (`counter + 1`
on entry), `t` indexes the snapshot each `listener.get_data()` call
observes. Returns the loop's outcome (`none` when it exhausted without
returning or raising) and the number of snapshot inspections performed. -/
def findPoll (device_id : Str) (snap : Nat → List SInfo) :
    Nat → Nat → Option (Except PyErr (Str × Nat)) × Nat
  | 0, _ => (none, 0)
  | n + 1, t =>
    match checkData device_id (snap t) with
    | .error e => (some (.error e), 1)
    | .ok (some res) => (some (.ok res), 1)
    | .ok none =>
      let rp := findPoll device_id snap n (t + 1)
      (rp.1, rp.2 + 1)

/-- Source `_find_device_ip_and_port(device_id, max_seconds)` (lines
203-226) over a time-indexed family of collector snapshots. The loop runs
with `counter` going `max_seconds * 2, ..., 0` — that is `max_seconds * 2
+ 1` iterations. `zeroconf.close()` sits in a `finally`, so it runs exactly
once whether the loop returns, raises, or falls through to the trailing
`raise AccessoryNotFoundError`. Result: (outcome, close count, poll
count). -/
def find_device_ip_and_port (device_id : Str) (snap : Nat → List SInfo)
    (max_seconds : Nat) : Except PyErr (Str × Nat) × Nat × Nat :=
  let rp := findPoll device_id snap (max_seconds * 2 + 1) 0
  (match rp.1 with
   | some res => res
   | none => .error .accessoryNotFound, 1, rp.2)

/-! Concrete announcements and records used by the claim theorems. Byte
properties below are ASCII, so the byte lists coincide with the code-point
lists produced by `S`. -/

/-- A well-formed announcement carrying `c#` and `md`. -/
def goodAnn : SInfo :=
  ⟨S "Acme._hap._tcp.local.", [[10, 0, 0, 1]], 1234,
   [(S "c#", S "1"), (S "md", S "Foo")]⟩

/-- The record `discover_homekit_devices` derives from `goodAnn`. -/
def goodRec : Record :=
  [(S "name", .rStr (S "Acme._hap._tcp.local.")),
   (S "address", .rStr (S "10.0.0.1")),
   (S "port", .rInt 1234),
   (S "c#", .rStr (S "1")),
   (S "ff", .rInt 0),
   (S "flags", .rFF 0),
   (S "md", .rStr (S "Foo")),
   (S "pv", .rStr (S "1.0"))]

/-- An announcement whose `ff` property is non-numeric: `int("x")` raises
`ValueError` during normalization. -/
def badAnn : SInfo :=
  ⟨S "Bad._hap._tcp.local.", [[10, 0, 0, 3]], 80, [(S "ff", S "x")]⟩

/-- Properties carrying every schema field except `md`. -/
def propsNoMd : List (Str × Str) :=
  [(S "c#", S "1"), (S "ff", S "0"), (S "id", S "AA"), (S "pv", S "1.0"),
   (S "s#", S "2"), (S "sf", S "0"), (S "ci", S "5")]

/-- What `parse_discovery_properties` yields on `propsNoMd`: every
derivable field, no completeness filtering. -/
def recNoMd : Record :=
  [(S "c#", .rStr (S "1")),
   (S "ff", .rInt 0),
   (S "flags", .rFF 0),
   (S "id", .rStr (S "AA")),
   (S "pv", .rStr (S "1.0")),
   (S "s#", .rStr (S "2")),
   (S "sf", .rStr (S "0")),
   (S "statusflags", .rSF 0),
   (S "ci", .rStr (S "5")),
   (S "category", .rCat 5)]

/-- An announcement advertising `propsNoMd` (every field but `md`). -/
def annNoMd : SInfo :=
  ⟨S "NoMd._hap._tcp.local.", [[10, 0, 0, 2]], 80, propsNoMd⟩

/-- The C7 input properties. -/
def propsC7 : List (Str × Str) :=
  [(S "c#", S "1"), (S "md", S "Foo"), (S "ff", S "0")]

/-- The record `parse_discovery_properties` yields on `propsC7`. -/
def recC7 : Record :=
  [(S "c#", .rStr (S "1")),
   (S "ff", .rInt 0),
   (S "flags", .rFF 0),
   (S "md", .rStr (S "Foo")),
   (S "pv", .rStr (S "1.0"))]

/-- The record `parse_discovery_properties` yields on `[("ci", "5")]`. -/
def ciOkRec : Record :=
  [(S "ff", .rInt 0),
   (S "flags", .rFF 0),
   (S "pv", .rStr (S "1.0")),
   (S "ci", .rStr (S "5")),
   (S "category", .rCat 5)]

/-- An announcement whose properties lack the `b"id"` key. -/
def annNoId : SInfo :=
  ⟨S "NoId._hap._tcp.local.", [[10, 0, 0, 4]], 80, [(S "md", S "Foo")]⟩

/-- An announcement whose `b"id"` property is `"X"`. -/
def annMatchX : SInfo :=
  ⟨S "X._hap._tcp.local.", [[1, 2, 3, 4]], 5678, [(S "id", S "X")]⟩

/-- A constant collector snapshot: a matching announcement followed by an
announcement with no `id` property. -/
def csnapC10 : Nat → List SInfo := fun _ => [annMatchX, annNoId]

/-- An announcement whose `b"id"` property is `"Y"` (never matching the
device id `"X"`). -/
def annOtherY : SInfo :=
  ⟨S "Y._hap._tcp.local.", [[9, 9, 9, 9]], 1, [(S "id", S "Y")]⟩

end AiohomekitZeroconf

namespace AiohomekitZeroconf

/-! Helper lemmas (shared across claim theorems). -/

/-- Encoding distributes over cons. -/
theorem utf8Encode_cons (c : Nat) (s : Str) :
    utf8Encode (c :: s) = utf8EncodeChar c ++ utf8Encode s := by
  simp [utf8Encode]

/-- Re-encoding one decoded UTF-8 sequence restores the consumed bytes:
the decoder only accepts canonical (shortest-form, in-range) sequences. -/
theorem utf8DecodeChar_encode : ∀ (l : List Nat) (c : Nat) (rest : List Nat),
    utf8DecodeChar l = some (c, rest) → utf8EncodeChar c ++ rest = l := by
  intro l c rest h
  rcases l with _ | ⟨b0, t⟩
  · exact Option.noConfusion h
  simp only [utf8DecodeChar] at h
  by_cases h1 : b0 < 0x80
  · rw [if_pos h1] at h
    obtain ⟨rfl, rfl⟩ : b0 = c ∧ t = rest := by simpa using h
    simp [utf8EncodeChar, h1]
  rw [if_neg h1] at h
  by_cases h2 : b0 < 0xC2
  · rw [if_pos h2] at h
    exact Option.noConfusion h
  rw [if_neg h2] at h
  by_cases h3 : b0 < 0xE0
  · rw [if_pos h3] at h
    rcases t with _ | ⟨b1, t1⟩
    · exact Option.noConfusion h
    replace h : (if 0x80 ≤ b1 ∧ b1 < 0xC0 then
        some ((b0 - 0xC0) * 64 + (b1 - 0x80), t1) else none) = some (c, rest) := h
    by_cases hb : 0x80 ≤ b1 ∧ b1 < 0xC0
    · rw [if_pos hb] at h
      obtain ⟨rfl, rfl⟩ : (b0 - 0xC0) * 64 + (b1 - 0x80) = c ∧ t1 = rest := by simpa using h
      simp only [utf8EncodeChar]
      rw [if_neg (by omega), if_pos (by omega)]
      simp only [List.cons_append, List.nil_append, List.cons.injEq]
      exact ⟨by omega, by omega, trivial⟩
    · rw [if_neg hb] at h
      exact Option.noConfusion h
  rw [if_neg h3] at h
  by_cases h4 : b0 < 0xF0
  · rw [if_pos h4] at h
    rcases t with _ | ⟨b1, _ | ⟨b2, t2⟩⟩
    · exact Option.noConfusion h
    · exact Option.noConfusion h
    replace h : (if 0x80 ≤ b1 ∧ b1 < 0xC0 ∧ 0x80 ≤ b2 ∧ b2 < 0xC0 then
        (if 0x800 ≤ (b0 - 0xE0) * 4096 + (b1 - 0x80) * 64 + (b2 - 0x80) ∧
            ((b0 - 0xE0) * 4096 + (b1 - 0x80) * 64 + (b2 - 0x80) < 0xD800 ∨
             0xE000 ≤ (b0 - 0xE0) * 4096 + (b1 - 0x80) * 64 + (b2 - 0x80)) then
          some ((b0 - 0xE0) * 4096 + (b1 - 0x80) * 64 + (b2 - 0x80), t2)
        else none)
      else none) = some (c, rest) := h
    by_cases hb : 0x80 ≤ b1 ∧ b1 < 0xC0 ∧ 0x80 ≤ b2 ∧ b2 < 0xC0
    · rw [if_pos hb] at h
      obtain ⟨hb1, hb2, hb3, hb4⟩ := hb
      by_cases hr : 0x800 ≤ (b0 - 0xE0) * 4096 + (b1 - 0x80) * 64 + (b2 - 0x80) ∧
          ((b0 - 0xE0) * 4096 + (b1 - 0x80) * 64 + (b2 - 0x80) < 0xD800 ∨
           0xE000 ≤ (b0 - 0xE0) * 4096 + (b1 - 0x80) * 64 + (b2 - 0x80))
      · rw [if_pos hr] at h
        obtain ⟨rfl, rfl⟩ :
            (b0 - 0xE0) * 4096 + (b1 - 0x80) * 64 + (b2 - 0x80) = c ∧ t2 = rest := by
          simpa using h
        obtain ⟨hr1, -⟩ := hr
        simp only [utf8EncodeChar]
        rw [if_neg (by omega), if_neg (by omega), if_pos (by omega)]
        simp only [List.cons_append, List.nil_append, List.cons.injEq]
        exact ⟨by omega, by omega, by omega, trivial⟩
      · rw [if_neg hr] at h
        exact Option.noConfusion h
    · rw [if_neg hb] at h
      exact Option.noConfusion h
  rw [if_neg h4] at h
  by_cases h5 : b0 < 0xF5
  · rw [if_pos h5] at h
    rcases t with _ | ⟨b1, _ | ⟨b2, _ | ⟨b3, t3⟩⟩⟩
    · exact Option.noConfusion h
    · exact Option.noConfusion h
    · exact Option.noConfusion h
    replace h : (if 0x80 ≤ b1 ∧ b1 < 0xC0 ∧ 0x80 ≤ b2 ∧ b2 < 0xC0 ∧ 0x80 ≤ b3 ∧ b3 < 0xC0 then
        (if 0x10000 ≤ (b0 - 0xF0) * 262144 + (b1 - 0x80) * 4096 + (b2 - 0x80) * 64 + (b3 - 0x80) ∧
            (b0 - 0xF0) * 262144 + (b1 - 0x80) * 4096 + (b2 - 0x80) * 64 + (b3 - 0x80) ≤ 0x10FFFF then
          some ((b0 - 0xF0) * 262144 + (b1 - 0x80) * 4096 + (b2 - 0x80) * 64 + (b3 - 0x80), t3)
        else none)
      else none) = some (c, rest) := h
    by_cases hb : 0x80 ≤ b1 ∧ b1 < 0xC0 ∧ 0x80 ≤ b2 ∧ b2 < 0xC0 ∧ 0x80 ≤ b3 ∧ b3 < 0xC0
    · rw [if_pos hb] at h
      obtain ⟨hb1, hb2, hb3, hb4, hb5, hb6⟩ := hb
      by_cases hr : 0x10000 ≤ (b0 - 0xF0) * 262144 + (b1 - 0x80) * 4096 + (b2 - 0x80) * 64 + (b3 - 0x80) ∧
          (b0 - 0xF0) * 262144 + (b1 - 0x80) * 4096 + (b2 - 0x80) * 64 + (b3 - 0x80) ≤ 0x10FFFF
      · rw [if_pos hr] at h
        obtain ⟨rfl, rfl⟩ :
            (b0 - 0xF0) * 262144 + (b1 - 0x80) * 4096 + (b2 - 0x80) * 64 + (b3 - 0x80) = c ∧
              t3 = rest := by
          simpa using h
        obtain ⟨hr1, hr2⟩ := hr
        simp only [utf8EncodeChar]
        rw [if_neg (by omega), if_neg (by omega), if_neg (by omega)]
        simp only [List.cons_append, List.nil_append, List.cons.injEq]
        exact ⟨by omega, by omega, by omega, by omega, trivial⟩
      · rw [if_neg hr] at h
        exact Option.noConfusion h
    · rw [if_neg hb] at h
      exact Option.noConfusion h
  rw [if_neg h5] at h
  exact Option.noConfusion h

/-- Fuelled decoding round-trips through encoding. -/
theorem utf8DecodeAux_encode : ∀ (fuel : Nat) (l : List Nat) (s : Str),
    utf8DecodeAux fuel l = some s → utf8Encode s = l := by
  intro fuel
  induction fuel with
  | zero =>
    intro l s h
    rcases l with _ | ⟨b, t⟩
    · obtain rfl : ([] : Str) = s := by simpa [utf8DecodeAux] using h
      rfl
    · exact Option.noConfusion h
  | succ fuel ih =>
    intro l s h
    rcases l with _ | ⟨b, t⟩
    · obtain rfl : ([] : Str) = s := by simpa [utf8DecodeAux] using h
      rfl
    · simp only [utf8DecodeAux] at h
      rcases hd : utf8DecodeChar (b :: t) with _ | ⟨c, rest⟩
      · rw [hd] at h
        exact Option.noConfusion h
      · simp only [hd, Option.some_bind] at h
        rcases ha : utf8DecodeAux fuel rest with _ | s1
        · simp only [ha, Option.map_none'] at h
          exact Option.noConfusion h
        · simp only [ha, Option.map_some'] at h
          obtain rfl : c :: s1 = s := by simpa using h
          rw [utf8Encode_cons, ih rest s1 ha]
          exact utf8DecodeChar_encode _ _ _ hd

/-- Decoding a byte string round-trips through encoding. -/
theorem utf8Decode_encode (l : List Nat) (s : Str) (h : utf8Decode l = some s) :
    utf8Encode s = l :=
  utf8DecodeAux_encode l.length l s h

/-- Decoding succeeds on payloads whose keys and values all decode, and
re-encoding the output restores the input bytes. -/
theorem decode_props_sound : ∀ (props : List (Bytes × Bytes)),
    (∀ p ∈ props, (utf8Decode p.1).isSome ∧ (utf8Decode p.2).isSome) →
    ∃ out, decode_discovery_properties props = .ok out ∧
      out.map (fun q => (utf8Encode q.1, utf8Encode q.2)) = props := by
  intro props
  induction props with
  | nil => intro _; exact ⟨[], rfl, rfl⟩
  | cons p rest ih =>
    rcases p with ⟨k, v⟩
    intro hall
    obtain ⟨hk, hv⟩ := hall (k, v) (List.mem_cons_self _ _)
    obtain ⟨ks, hks⟩ := Option.isSome_iff_exists.mp hk
    obtain ⟨vs, hvs⟩ := Option.isSome_iff_exists.mp hv
    have hks' : utf8Decode k = some ks := hks
    have hvs' : utf8Decode v = some vs := hvs
    obtain ⟨out, hout, hmap⟩ := ih (fun q hq => hall q (List.mem_cons_of_mem _ hq))
    refine ⟨(ks, vs) :: out, ?_, ?_⟩
    · simp only [decode_discovery_properties]
      rw [hks', hvs', hout]
    · simp only [List.map_cons, hmap, List.cons.injEq, Prod.mk.injEq]
      exact ⟨⟨utf8Decode_encode _ _ hks', utf8Decode_encode _ _ hvs'⟩, trivial⟩

/-- Decoding raises as soon as any key or value is invalid UTF-8. -/
theorem decode_props_fails : ∀ (props : List (Bytes × Bytes)) (p : Bytes × Bytes),
    p ∈ props → (utf8Decode p.1 = none ∨ utf8Decode p.2 = none) →
    decode_discovery_properties props = .error PyErr.unicodeDecodeError := by
  intro props
  induction props with
  | nil => intro p hp _; exact absurd hp (List.not_mem_nil p)
  | cons q rest ih =>
    intro p hp hbad
    rcases q with ⟨k, v⟩
    rcases hdk : utf8Decode k with _ | ks
    · simp only [decode_discovery_properties, hdk]
    · rcases hdv : utf8Decode v with _ | vs
      · simp only [decode_discovery_properties, hdk, hdv]
      · rcases List.mem_cons.mp hp with rfl | hmem
        · rcases hbad with hbk | hbv
          · exact absurd hdk (by simp [hbk])
          · exact absurd hdv (by simp [hbv])
        · simp only [decode_discovery_properties, hdk, hdv, ih p hmem hbad]

/-- C9: on byte mappings whose keys and values are all valid UTF-8,
`decode_discovery_properties` succeeds and UTF-8-re-encoding every key and
value of the output restores the original byte mapping; as soon as any key
or value is invalid UTF-8 it fails with the decoding error
(`UnicodeDecodeError`). -/
theorem c9_decode_roundtrip :
    (∀ props : List (Bytes × Bytes),
      (∀ p ∈ props, (utf8Decode p.1).isSome ∧ (utf8Decode p.2).isSome) →
      ∃ out, decode_discovery_properties props = .ok out ∧
        out.map (fun q => (utf8Encode q.1, utf8Encode q.2)) = props) ∧
    (∀ (props : List (Bytes × Bytes)) (p : Bytes × Bytes),
      p ∈ props → (utf8Decode p.1 = none ∨ utf8Decode p.2 = none) →
      decode_discovery_properties props = .error PyErr.unicodeDecodeError) :=
  ⟨decode_props_sound, decode_props_fails⟩

/-- Witness for C9 at a concrete payload containing a two-byte UTF-8
value. -/
theorem c9_decode_roundtrip_witness :
    ∃ out, decode_discovery_properties [([0x6D, 0x64], [0xC3, 0xA9])] = .ok out ∧
      out.map (fun q => (utf8Encode q.1, utf8Encode q.2)) = [([0x6D, 0x64], [0xC3, 0xA9])] :=
  c9_decode_roundtrip.1 [([0x6D, 0x64], [0xC3, 0xA9])] (by decide)

/-- C5: when the key is absent (after optional case folding),
`get_from_properties` returns `str(default)` for a truthy default and
`None` otherwise; in particular the falsy defaults `0` and `""` are
treated as no default and yield `None`. -/
theorem c5_default_truthiness :
    (∀ (props : List (Str × Str)) (key : Str) (d : Option PyVal) (cs : Bool),
      (if cs then dlookup props key else dlookup (lowerDict props) (pyLower key)) = none →
      get_from_properties props key d cs =
        (match d with
         | some v => if pyTruthy v then some (pyStr v) else none
         | none => none)) ∧
    get_from_properties [] (S "k") (some (PyVal.vInt 0)) true = none ∧
    get_from_properties [] (S "k") (some (PyVal.vStr [])) true = none ∧
    get_from_properties [] (S "k") (some (PyVal.vInt 5)) true = some (S "5") ∧
    get_from_properties [] (S "k") none true = none := by
  refine ⟨?_, rfl, rfl, rfl, rfl⟩
  intro props key d cs habs
  cases cs
  · replace habs : dlookup (lowerDict props) (pyLower key) = none := habs
    simp only [get_from_properties, Bool.false_eq_true, if_false, habs]
  · replace habs : dlookup props key = none := habs
    simp only [get_from_properties, if_true, habs]

/-- Witness for C5: an absent key with a truthy integer default. -/
theorem c5_default_truthiness_witness :
    get_from_properties [(S "a", S "b")] (S "k") (some (PyVal.vInt 7)) true = some (S "7") :=
  (c5_default_truthiness.1 [(S "a", S "b")] (S "k") (some (PyVal.vInt 7)) true
    (by decide)).trans (by decide)

/-- Upserting a fresh key appends. -/
theorem upsert_not_mem {α : Type} : ∀ (acc : List (Str × α)) (k : Str) (v : α),
    (∀ q ∈ acc, q.1 ≠ k) → upsert acc k v = acc ++ [(k, v)] := by
  intro acc k v
  induction acc with
  | nil => intro _; rfl
  | cons q rest ih =>
    intro h
    rcases q with ⟨k0, v0⟩
    have hne : k0 ≠ k := h (k0, v0) (List.mem_cons_self _ _)
    simp only [upsert, if_neg hne, List.cons_append]
    exact congrArg (List.cons (k0, v0)) (ih (fun q hq => h q (List.mem_cons_of_mem _ hq)))

/-- When the lowercased keys are pairwise distinct, the lowercasing fold
is a plain map over the entries. -/
theorem lowerDict_foldl_eq_map {α : Type} : ∀ (props acc : List (Str × α)),
    (acc.map Prod.fst ++ props.map (fun p => pyLower p.1)).Nodup →
    props.foldl (fun a kv => upsert a (pyLower kv.1) kv.2) acc
      = acc ++ props.map (fun p => (pyLower p.1, p.2)) := by
  intro props
  induction props with
  | nil => intro acc _; simp
  | cons p rest ih =>
    intro acc h
    have hfresh : ∀ q ∈ acc, q.1 ≠ pyLower p.1 := by
      intro q hq
      have hmem : q.1 ∈ acc.map Prod.fst := List.mem_map_of_mem Prod.fst hq
      have hdisj := (List.nodup_append.mp h).2.2
      intro hcontr
      exact hdisj hmem (by rw [hcontr]; exact List.mem_cons_self _ _)
    simp only [List.foldl_cons]
    rw [upsert_not_mem acc (pyLower p.1) p.2 hfresh, ih (acc ++ [(pyLower p.1, p.2)]) ?hnd]
    · simp
    case hnd =>
      have : (acc ++ [(pyLower p.1, p.2)]).map Prod.fst ++ rest.map (fun p => pyLower p.1)
          = acc.map Prod.fst ++ ((p :: rest).map (fun p => pyLower p.1)) := by
        simp
      rw [this]
      exact h

/-- The function `lowerDict` is a plain per-entry lowercasing map when no two keys
collide after lowercasing. -/
theorem lowerDict_eq_map {α : Type} (props : List (Str × α))
    (h : (props.map (fun p => pyLower p.1)).Nodup) :
    lowerDict props = props.map (fun p => (pyLower p.1, p.2)) := by
  have := lowerDict_foldl_eq_map props [] (by simpa using h)
  simpa [lowerDict] using this

/-- Lookup in the lowercased copy finds the entry of any key whose
lowercase form matches, provided lowercased keys are pairwise distinct. -/
theorem dlookup_lowered : ∀ (props : List (Str × Str)) (k v : Str),
    (props.map (fun p => pyLower p.1)).Nodup → (k, v) ∈ props →
    dlookup (props.map (fun p => (pyLower p.1, p.2))) (pyLower k) = some v := by
  intro props
  induction props with
  | nil => intro k v _ h; exact absurd h (List.not_mem_nil _)
  | cons q rest ih =>
    intro k v hnd hmem
    rcases q with ⟨k0, v0⟩
    rw [List.map_cons] at hnd
    obtain ⟨hhead, htail⟩ := List.nodup_cons.mp hnd
    simp only [List.map_cons, dlookup]
    by_cases heq : pyLower k0 = pyLower k
    · rw [if_pos heq]
      rcases List.mem_cons.mp hmem with h1 | h1
      · injection h1 with h1a h1b
        subst h1a; subst h1b
        rfl
      · exact absurd (heq ▸ List.mem_map_of_mem (fun p => pyLower p.1) h1) hhead
    · rw [if_neg heq]
      rcases List.mem_cons.mp hmem with h1 | h1
      · injection h1 with h1a h1b
        exact absurd (congrArg pyLower h1a.symm) heq
      · exact ih k v htail h1

/-- C8: with `case_sensitive=False`, `get_from_properties` finds the
stored value whatever the casing of the stored key and of the lookup key,
whenever keys occur in a single casing variant (no two stored keys collide
after lowercasing). -/
theorem c8_case_insensitive_lookup :
    ∀ (props : List (Str × Str)) (k v key : Str) (d : Option PyVal),
      (props.map (fun p => pyLower p.1)).Nodup →
      (k, v) ∈ props → pyLower key = pyLower k →
      get_from_properties props key d false = some v := by
  intro props k v key d hnd hmem hkey
  have h1 : lowerDict props = props.map (fun p => (pyLower p.1, p.2)) :=
    lowerDict_eq_map props hnd
  simp only [get_from_properties, Bool.false_eq_true, if_false, h1, hkey,
    dlookup_lowered props k v hnd hmem]

/-- Witness for C8: key stored as `"Md"`, looked up as `"mD"`. -/
theorem c8_case_insensitive_lookup_witness :
    get_from_properties [(S "Md", S "X3"), (S "CI", S "5")] (S "mD") none false = some (S "X3") :=
  c8_case_insensitive_lookup [(S "Md", S "X3"), (S "CI", S "5")] (S "Md") (S "X3") (S "mD") none
    (by decide) (by decide) (by decide)

/-- C7: `parse_discovery_properties` on `{"c#": "1", "md": "Foo", "ff": "0"}`
returns a record with `c# = "1"`, `md = "Foo"`, `ff = 0` (the integer),
`flags` the feature-flags classification of 0, and neither a `category` nor
a `statusflags` key. -/
theorem c7_normalize_example :
    parse_discovery_properties propsC7 = .ok recC7 ∧
    dlookup recC7 (S "c#") = some (.rStr (S "1")) ∧
    dlookup recC7 (S "md") = some (.rStr (S "Foo")) ∧
    dlookup recC7 (S "ff") = some (.rInt 0) ∧
    dlookup recC7 (S "flags") = some (.rFF 0) ∧
    dlookup recC7 (S "category") = none ∧
    dlookup recC7 (S "statusflags") = none :=
  ⟨rfl, rfl, rfl, rfl, rfl, rfl, rfl⟩

/-- C4 (code bug): with the category key stored as `"CI"`, the guarding
lookup succeeds case-insensitively but the source then re-reads
`props["ci"]` with a case-sensitive dict index (line 196) and raises
`KeyError`; with the key stored lowercase the same properties normalize
fine, producing both `ci` and `category`. -/
theorem c4_ci_casing_bug :
    parse_discovery_properties [(S "CI", S "5")] = .error PyErr.keyError ∧
    get_from_properties [(S "CI", S "5")] (S "ci") none false = some (S "5") ∧
    parse_discovery_properties [(S "ci", S "5")] = .ok ciOkRec ∧
    hasKeyR ciOkRec (S "ci") = true ∧
    hasKeyR ciOkRec (S "category") = true :=
  ⟨rfl, rfl, rfl, rfl, rfl⟩

/-- C1 (counterexample): collected announcements `[goodAnn, badAnn]`, where
`badAnn` has a non-numeric `ff`. The claim says enumeration would still
return the record of `goodAnn`; the code has no `try` around the loop, so
the `ValueError` aborts the whole call and nothing is returned. -/
theorem c1_counterexample :
    process_info goodAnn = .ok goodRec ∧
    hasKeyR goodRec (S "c#") = true ∧
    hasKeyR goodRec (S "md") = true ∧
    (discover_homekit_devices [goodAnn, badAnn]).1 = .error PyErr.valueError ∧
    (discover_homekit_devices [goodAnn, badAnn]).1 ≠ .ok [goodRec] :=
  ⟨rfl, rfl, rfl, rfl, fun h => Except.noConfusion h⟩

/-- C2 (counterexample): on `[badAnn]` the normalization `ValueError`
propagates out of `discover_homekit_devices` before line 126, so
`zeroconf.close()` never runs: the close count is 0, not 1. -/
theorem c2_counterexample :
    (discover_homekit_devices [badAnn]).1 = .error PyErr.valueError ∧
    (discover_homekit_devices [badAnn]).2 = 0 ∧
    (discover_homekit_devices [badAnn]).2 ≠ 1 :=
  ⟨rfl, rfl, by decide⟩

/-- C3 (counterexample): with `timeoutSeconds = 1` and no announcements at
all, `_find_device_ip_and_port` performs 3 snapshot inspections (`counter`
runs 2, 1, 0), not `1 * 2 = 2`, before raising `AccessoryNotFoundError`. -/
theorem c3_counterexample :
    (find_device_ip_and_port (S "X") (fun _ => []) 1).2.2 = 3 ∧
    (find_device_ip_and_port (S "X") (fun _ => []) 1).2.2 ≠ 1 * 2 ∧
    (find_device_ip_and_port (S "X") (fun _ => []) 1).1 = .error PyErr.accessoryNotFound :=
  ⟨rfl, by decide, rfl⟩

/-- C10 (counterexample): the snapshot contains an announcement with no
`b"id"` key, yet the call neither raises `KeyError` nor
`AccessoryNotFoundError`: a matching announcement earlier in the same
snapshot returns successfully before the id-less one is reached. -/
theorem c10_counterexample :
    annNoId ∈ csnapC10 0 ∧
    dlookup annNoId.properties bIdK = none ∧
    (find_device_ip_and_port (S "X") csnapC10 0).1 = .ok (S "1.2.3.4", 5678) :=
  ⟨by decide, rfl, rfl⟩

/-- The result component of `discover_homekit_devices` is the collection
loop's outcome. -/
theorem discover_fst (infos : List SInfo) :
    (discover_homekit_devices infos).1 = discover_records infos := by
  rcases h : discover_records infos with e | recs <;>
    simp [discover_homekit_devices, h]

/-- Every record the collection loop keeps passed the completeness guard. -/
theorem discover_records_complete : ∀ (infos : List SInfo) (recs : List Record),
    discover_records infos = .ok recs →
    ∀ r ∈ recs, hasKeyR r (S "c#") = true ∧ hasKeyR r (S "md") = true := by
  intro infos
  induction infos with
  | nil =>
    intro recs h r hr
    obtain rfl : ([] : List Record) = recs := by simpa [discover_records] using h
    exact absurd hr (List.not_mem_nil r)
  | cons info rest ih =>
    intro recs h r hr
    rcases hp : process_info info with e | data
    · rw [show discover_records (info :: rest) = .error e from by
        simp [discover_records, hp]] at h
      exact Except.noConfusion h
    · rcases hrec : discover_records rest with e | tail
      · rw [show discover_records (info :: rest) = .error e from by
          simp [discover_records, hp, hrec]] at h
        exact Except.noConfusion h
      · by_cases hg : (hasKeyR data (S "c#") && hasKeyR data (S "md")) = true
        · rw [show discover_records (info :: rest) = .ok (data :: tail) from by
            simp [discover_records, hp, hrec, hg]] at h
          obtain rfl : data :: tail = recs := by simpa using h
          rcases List.mem_cons.mp hr with rfl | hmem
          · exact Bool.and_eq_true .. ▸ hg
          · exact ih tail hrec r hmem
        · rw [show discover_records (info :: rest) = .ok tail from by
            simp only [discover_records, hp, hrec]
            rw [if_neg hg]] at h
          obtain rfl : tail = recs := by simpa using h
          exact ih tail hrec r hr

/-- C6: every record returned by `discover_homekit_devices` carries both
`c#` and `md`; the codec itself applies no such filter — on properties
with every field but `md` it still returns all derivable fields — while
enumeration drops the corresponding announcement entirely. -/
theorem c6_completeness_filter :
    (∀ (infos : List SInfo) (recs : List Record),
      (discover_homekit_devices infos).1 = .ok recs →
      ∀ r ∈ recs, hasKeyR r (S "c#") = true ∧ hasKeyR r (S "md") = true) ∧
    parse_discovery_properties propsNoMd = .ok recNoMd ∧
    hasKeyR recNoMd (S "md") = false ∧
    hasKeyR recNoMd (S "c#") = true ∧
    hasKeyR recNoMd (S "ci") = true ∧
    (discover_homekit_devices [annNoMd]).1 = .ok [] := by
  refine ⟨?_, rfl, rfl, rfl, rfl, rfl⟩
  intro infos recs h r hr
  rw [discover_fst] at h
  exact discover_records_complete infos recs h r hr

/-- Witness for C6 on the singleton complete announcement `goodAnn`. -/
theorem c6_completeness_filter_witness :
    hasKeyR goodRec (S "c#") = true ∧ hasKeyR goodRec (S "md") = true :=
  c6_completeness_filter.1 [goodAnn] [goodRec] rfl goodRec (by decide)

/-- If any collected announcement fails to decode or normalize, the whole
collection loop errors out. -/
theorem discover_records_aborts :
    ∀ (pre : List SInfo) (bad : SInfo) (post : List SInfo) (e : PyErr),
      process_info bad = .error e →
      ∃ e2, discover_records (pre ++ bad :: post) = .error e2 := by
  intro pre bad post e hbad
  induction pre with
  | nil => exact ⟨e, by simp [discover_records, hbad]⟩
  | cons a pre ih =>
    obtain ⟨e2, h2⟩ := ih
    rcases ha : process_info a with ea | data
    · exact ⟨ea, by simp [discover_records, ha]⟩
    · exact ⟨e2, by simp [discover_records, ha, h2]⟩

/-- C1 (amended): when decoding or numeric parsing fails for any collected
announcement, the exception propagates out of `discover_homekit_devices`:
no partial results are returned (and the handle is not closed). -/
theorem c1_amended :
    ∀ (pre : List SInfo) (bad : SInfo) (post : List SInfo) (e : PyErr),
      process_info bad = .error e →
      ∃ e2, discover_homekit_devices (pre ++ bad :: post) = (.error e2, 0) := by
  intro pre bad post e hbad
  obtain ⟨e2, h2⟩ := discover_records_aborts pre bad post e hbad
  exact ⟨e2, by simp [discover_homekit_devices, h2]⟩

/-- Witness for C1 (amended) at the concrete bad announcement. -/
theorem c1_amended_witness :
    ∃ e2, discover_homekit_devices [badAnn] = (.error e2, 0) :=
  c1_amended [] badAnn [] PyErr.valueError rfl

/-- C2 (amended): `_find_device_ip_and_port` closes the Zeroconf handle
exactly once on every exit path (its `close()` is in a `finally`), while
`discover_homekit_devices` closes it exactly once only when the loop
finishes without an exception, and not at all when one propagates. -/
theorem c2_amended :
    (∀ (did : Str) (snap : Nat → List SInfo) (m : Nat),
      (find_device_ip_and_port did snap m).2.1 = 1) ∧
    (∀ (infos : List SInfo) (recs : List Record),
      (discover_homekit_devices infos).1 = .ok recs →
      (discover_homekit_devices infos).2 = 1) ∧
    (∀ (infos : List SInfo) (e : PyErr),
      (discover_homekit_devices infos).1 = .error e →
      (discover_homekit_devices infos).2 = 0) := by
  refine ⟨fun did snap m => rfl, ?_, ?_⟩
  · intro infos recs h
    rcases hd : discover_records infos with e | recs2
    · rw [discover_fst, hd] at h
      exact Except.noConfusion h
    · simp [discover_homekit_devices, hd]
  · intro infos e h
    rcases hd : discover_records infos with e2 | recs2
    · simp [discover_homekit_devices, hd]
    · rw [discover_fst, hd] at h
      exact Except.noConfusion h

/-- Witness for C2 (amended): a successful enumeration closes once. -/
theorem c2_amended_witness :
    (discover_homekit_devices [goodAnn]).2 = 1 :=
  c2_amended.2.1 [goodAnn] [goodRec] rfl

/-- The outcome component of `_find_device_ip_and_port` is the loop's
outcome, with the trailing `raise AccessoryNotFoundError` on exhaustion. -/
theorem find_fst (did : Str) (snap : Nat → List SInfo) (m : Nat) :
    (find_device_ip_and_port did snap m).1 =
      (match (findPoll did snap (m * 2 + 1) 0).1 with
       | some res => res
       | none => .error PyErr.accessoryNotFound) := rfl

/-- A snapshot pass over announcements that all carry a decodable,
non-matching `id` falls through without returning or raising. -/
theorem checkData_none : ∀ (did : Str) (l : List SInfo),
    (∀ info ∈ l, ∃ v s, dlookup info.properties bIdK = some v ∧
      utf8Decode v = some s ∧ s ≠ did) →
    checkData did l = .ok none := by
  intro did l
  induction l with
  | nil => intro _; rfl
  | cons info rest ih =>
    intro hall
    obtain ⟨v, s, hv, hs, hne⟩ := hall info (List.mem_cons_self _ _)
    simp only [checkData, hv, hs]
    rw [if_neg hne]
    exact ih (fun i hi => hall i (List.mem_cons_of_mem _ hi))

/-- If every inspected snapshot falls through, the poll loop exhausts all
its iterations, inspecting one snapshot per iteration. -/
theorem findPoll_none : ∀ (did : Str) (snap : Nat → List SInfo) (n t : Nat),
    (∀ u, checkData did (snap u) = .ok none) →
    findPoll did snap n t = (none, n) := by
  intro did snap n
  induction n with
  | zero => intro t _; rfl
  | succ n ih =>
    intro t hall
    simp [findPoll, hall t, ih (t + 1) hall]

/-- C3 (amended): when every collected announcement carries a decodable
`id` that never matches, `_find_device_ip_and_port` performs exactly
`timeoutSeconds * 2 + 1` snapshot inspections (the loop runs with
`counter = timeoutSeconds * 2, ..., 0`), closes the handle once, and
raises `AccessoryNotFoundError`. -/
theorem c3_amended :
    ∀ (did : Str) (snap : Nat → List SInfo) (m : Nat),
      (∀ t, ∀ info ∈ snap t, ∃ v s, dlookup info.properties bIdK = some v ∧
        utf8Decode v = some s ∧ s ≠ did) →
      find_device_ip_and_port did snap m =
        (.error PyErr.accessoryNotFound, 1, m * 2 + 1) := by
  intro did snap m hall
  have h := findPoll_none did snap (m * 2 + 1) 0
    (fun u => checkData_none did (snap u) (hall u))
  simp [find_device_ip_and_port, h]

/-- Witness for C3 (amended): a single announcement with the non-matching
id `"Y"` and a timeout of 2 yields 5 inspections and DeviceNotFound. -/
theorem c3_amended_witness :
    find_device_ip_and_port (S "X") (fun _ => [annOtherY]) 2 =
      (.error PyErr.accessoryNotFound, 1, 2 * 2 + 1) :=
  c3_amended (S "X") (fun _ => [annOtherY]) 2 (by
    intro t info h
    rcases List.mem_singleton.mp h with rfl
    exact ⟨S "Y", S "Y", rfl, rfl, by decide⟩)

/-- A snapshot pass hits `KeyError` at the first id-less announcement when
every earlier announcement carries a decodable, non-matching `id`. -/
theorem checkData_keyError :
    ∀ (did : Str) (pre : List SInfo) (bad : SInfo) (later : List SInfo),
      (∀ info ∈ pre, ∃ v s, dlookup info.properties bIdK = some v ∧
        utf8Decode v = some s ∧ s ≠ did) →
      dlookup bad.properties bIdK = none →
      checkData did (pre ++ bad :: later) = .error PyErr.keyError := by
  intro did pre
  induction pre with
  | nil =>
    intro bad later _ hbad
    simp only [List.nil_append, checkData, hbad]
  | cons info pre ih =>
    intro bad later hall hbad
    obtain ⟨v, s, hv, hs, hne⟩ := hall info (List.mem_cons_self _ _)
    simp only [List.cons_append, checkData, hv, hs]
    rw [if_neg hne]
    exact ih bad later (fun i hi => hall i (List.mem_cons_of_mem _ hi)) hbad

/-- If the first `k` inspections fall through and inspection `k` raises,
the loop's outcome is that error. -/
theorem findPoll_reach : ∀ (did : Str) (snap : Nat → List SInfo)
    (k n t0 : Nat) (e : PyErr),
    k < n →
    (∀ i, i < k → checkData did (snap (t0 + i)) = .ok none) →
    checkData did (snap (t0 + k)) = .error e →
    (findPoll did snap n t0).1 = some (.error e) := by
  intro did snap k
  induction k with
  | zero =>
    intro n t0 e hk hpre herr
    rcases n with _ | n
    · omega
    · rw [Nat.add_zero] at herr
      simp [findPoll, herr]
  | succ k ih =>
    intro n t0 e hk hpre herr
    rcases n with _ | n
    · omega
    · have h0 : checkData did (snap t0) = .ok none := by
        have := hpre 0 (Nat.succ_pos k)
        rwa [Nat.add_zero] at this
      have htail : (findPoll did snap n (t0 + 1)).1 = some (.error e) := by
        refine ih n (t0 + 1) e (by omega) ?_ ?_
        · intro i hi
          rw [show t0 + 1 + i = t0 + (i + 1) from by omega]
          exact hpre (i + 1) (by omega)
        · rw [show t0 + 1 + k = t0 + (k + 1) from by omega]
          exact herr
      simp only [findPoll, h0]
      exact htail

/-- A snapshot pass never raises `AccessoryNotFoundError` itself. -/
theorem checkData_ne_notFound : ∀ (did : Str) (l : List SInfo),
    checkData did l ≠ .error PyErr.accessoryNotFound := by
  intro did l
  induction l with
  | nil => intro h; exact Except.noConfusion h
  | cons a rest ih =>
    intro h
    rcases hv : dlookup a.properties bIdK with _ | v
    · simp [checkData, hv] at h
    · rcases hs : utf8Decode v with _ | s
      · simp [checkData, hv, hs] at h
      · by_cases heq : s = did
        · rcases ha : a.addresses with _ | ⟨addr, t2⟩
          · simp [checkData, hv, hs, heq, ha] at h
          · rcases hin : inet_ntoa addr with _ | astr
            · simp [checkData, hv, hs, heq, ha, hin] at h
            · simp [checkData, hv, hs, heq, ha, hin] at h
        · rw [show checkData did (a :: rest) = checkData did rest from by
            simp only [checkData, hv, hs]
            rw [if_neg heq]] at h
          exact ih h

/-- The loop's outcome is never `some AccessoryNotFoundError`: that error
only arises from the trailing `raise` after exhaustion. -/
theorem findPoll_ne_notFound : ∀ (did : Str) (snap : Nat → List SInfo) (n t0 : Nat),
    (findPoll did snap n t0).1 ≠ some (.error PyErr.accessoryNotFound) := by
  intro did snap n
  induction n with
  | zero => intro t0 h; exact Option.noConfusion h
  | succ n ih =>
    intro t0 h
    rcases hc : checkData did (snap t0) with e | o
    · simp only [findPoll, hc] at h
      obtain rfl : e = PyErr.accessoryNotFound := by simpa using h
      exact checkData_ne_notFound did (snap t0) hc
    · rcases o with _ | res
      · replace h : (findPoll did snap n (t0 + 1)).1 = some (.error PyErr.accessoryNotFound) := by
          simpa only [findPoll, hc] using h
        exact ih (t0 + 1) h
      · simp only [findPoll, hc] at h
        simp at h

/-- An exhausted loop means every inspected snapshot fell through. -/
theorem findPoll_exhaust : ∀ (did : Str) (snap : Nat → List SInfo) (n t0 : Nat),
    (findPoll did snap n t0).1 = none →
    ∀ i, i < n → checkData did (snap (t0 + i)) = .ok none := by
  intro did snap n
  induction n with
  | zero => intro t0 _ i hi; omega
  | succ n ih =>
    intro t0 h i hi
    rcases hc : checkData did (snap t0) with e | o
    · simp only [findPoll, hc] at h
      exact Option.noConfusion h
    · rcases o with _ | res
      · rcases i with _ | i
        · rwa [Nat.add_zero]
        · replace h : (findPoll did snap n (t0 + 1)).1 = none := by
            simpa only [findPoll, hc] using h
          rw [show t0 + (i + 1) = t0 + 1 + i from by omega]
          exact ih (t0 + 1) h i (by omega)
      · simp only [findPoll, hc] at h
        exact Option.noConfusion h

/-- A fallen-through snapshot pass saw an `id` entry on every
announcement. -/
theorem checkData_hasId : ∀ (did : Str) (l : List SInfo),
    checkData did l = .ok none →
    ∀ info ∈ l, (dlookup info.properties bIdK).isSome := by
  intro did l
  induction l with
  | nil => intro _ info hi; exact absurd hi (List.not_mem_nil _)
  | cons a rest ih =>
    intro h info hi
    rcases hv : dlookup a.properties bIdK with _ | v
    · simp [checkData, hv] at h
    · rcases List.mem_cons.mp hi with rfl | hmem
      · simp [hv]
      · rcases hs : utf8Decode v with _ | s
        · simp [checkData, hv, hs] at h
        · by_cases heq : s = did
          · rcases ha : a.addresses with _ | ⟨addr, t2⟩
            · simp [checkData, hv, hs, heq, ha] at h
            · rcases hin : inet_ntoa addr with _ | astr
              · simp [checkData, hv, hs, heq, ha, hin] at h
              · simp [checkData, hv, hs, heq, ha, hin] at h
          · refine ih ?_ info hmem
            rw [show checkData did (a :: rest) = checkData did rest from by
              simp only [checkData, hv, hs]
              rw [if_neg heq]] at h
            exact h

/-- C10 (amended): an id-less announcement produces `KeyError` only when
it is reached — no earlier poll iteration returned or raised and no
earlier announcement of the same snapshot matched — and
`AccessoryNotFoundError` can only be raised when every announcement of
every inspected snapshot carries the `b"id"` property. -/
theorem c10_amended :
    (∀ (did : Str) (snap : Nat → List SInfo) (m t : Nat)
        (pre : List SInfo) (bad : SInfo) (later : List SInfo),
      t ≤ m * 2 →
      (∀ u, u < t → checkData did (snap u) = .ok none) →
      snap t = pre ++ bad :: later →
      (∀ info ∈ pre, ∃ v s, dlookup info.properties bIdK = some v ∧
        utf8Decode v = some s ∧ s ≠ did) →
      dlookup bad.properties bIdK = none →
      (find_device_ip_and_port did snap m).1 = .error PyErr.keyError) ∧
    (∀ (did : Str) (snap : Nat → List SInfo) (m : Nat),
      (find_device_ip_and_port did snap m).1 = .error PyErr.accessoryNotFound →
      ∀ t, t ≤ m * 2 → ∀ info ∈ snap t, (dlookup info.properties bIdK).isSome) := by
  constructor
  · intro did snap m t pre bad later ht hpre hsnap hok hbad
    have herr : checkData did (snap t) = .error PyErr.keyError := by
      rw [hsnap]
      exact checkData_keyError did pre bad later hok hbad
    have hfp : (findPoll did snap (m * 2 + 1) 0).1 = some (.error PyErr.keyError) := by
      refine findPoll_reach did snap t (m * 2 + 1) 0 PyErr.keyError (by omega) ?_ ?_
      · intro i hi
        rw [Nat.zero_add]
        exact hpre i hi
      · rw [Nat.zero_add]
        exact herr
    rw [find_fst, hfp]
  · intro did snap m h t ht info hi
    rcases hq : (findPoll did snap (m * 2 + 1) 0).1 with _ | res
    · have hall := findPoll_exhaust did snap (m * 2 + 1) 0 hq t (by omega)
      rw [Nat.zero_add] at hall
      exact checkData_hasId did (snap t) hall info hi
    · rw [find_fst, hq] at h
      obtain rfl : res = .error PyErr.accessoryNotFound := h
      exact absurd hq (findPoll_ne_notFound did snap (m * 2 + 1) 0)

/-- Witness for C10 (amended): a single id-less announcement at iteration
0 yields `KeyError`. -/
theorem c10_amended_witness :
    (find_device_ip_and_port (S "X") (fun _ => [annNoId]) 0).1 = .error PyErr.keyError :=
  c10_amended.1 (S "X") (fun _ => [annNoId]) 0 0 [] annNoId []
    (Nat.le_refl 0) (fun u hu => absurd hu (Nat.not_lt_zero u)) rfl
    (fun info hi => absurd hi (List.not_mem_nil info)) rfl

end AiohomekitZeroconf
